import Mathlib

/-!
Shallow embedding of the `agent_config_security` package (crypto manager,
audit logger, credential manager, sandbox injector) and proofs about the
claims of its specification.

Modelling conventions:
- Python `bytes` are `List Nat`; Python `str` is Lean `String`.
- Python dictionaries are association lists with first-match lookup
  (Python dict keys are unique, so this is faithful).
- Clock reads (`datetime.utcnow()`) are threaded explicitly as a `now : Nat`
  parameter; event timestamps are their rendered form.
- External cryptographic primitives (AES-GCM from the `cryptography`
  library, `hmac`/`hashlib` digests) are parameters of the operations that
  call them; theorems state their contracts as explicit hypotheses.
- JSON values appearing in audit `details` are the deep embedding `JValue`.
-/

/-- Bytes of a Python `bytes` value, one `Nat` per byte. -/
abbrev Bytes := List Nat

/-- ASCII-wise lower casing of a string, modelling Python `str.lower()`. -/
def lowerStr (s : String) : String := String.mk (s.data.map Char.toLower)

/-- ASCII-wise upper casing of a string, modelling Python `str.upper()`. -/
def upperStr (s : String) : String := String.mk (s.data.map Char.toUpper)

/-- Does `needle` occur as a contiguous substring of `hay`?  Models the
Python expression `needle in hay` on strings. -/
def strContainsSub (hay needle : List Char) : Bool :=
  match hay with
  | [] => needle.isEmpty
  | _ :: rest => needle.isPrefixOf hay || strContainsSub rest needle

/-- Code-point lexicographic order on char lists, modelling Python `str <`. -/
def strLtB (a b : List Char) : Bool :=
  match a, b with
  | [], [] => false
  | [], _ :: _ => true
  | _ :: _, [] => false
  | c :: as, d :: bs =>
      if c.toNat < d.toNat then true
      else if d.toNat < c.toNat then false
      else strLtB as bs

/-- Deep embedding of the JSON-like values stored in audit event `details`
(Python `dict[str, Any]` trees built from strings, ints, bools, None,
lists and dicts). -/
inductive JValue where
  | s (v : String)
  | n (v : Int)
  | b (v : Bool)
  | null
  | arr (items : List JValue)
  | obj (entries : List (String × JValue))

/-- JSON string escaping (backslash and double quote; the payloads this
development evaluates are printable ASCII, for which this matches
Python `json.dumps`). -/
def escapeChar (c : Char) : String :=
  if c = '\\' then "\\\\"
  else if c = '\"' then "\\\""
  else String.singleton c

/-- Render a JSON string literal. -/
def jsonStr (s : String) : String :=
  "\"" ++ String.join (s.data.map escapeChar) ++ "\""

/-- Stable insertion of a rendered key/value pair into a key-sorted list. -/
def insertPairSorted (p : String × String) : List (String × String) → List (String × String)
  | [] => [p]
  | q :: rest => if strLtB p.1.data q.1.data then p :: q :: rest else q :: insertPairSorted p rest

/-- Sort rendered key/value pairs by key, modelling `sort_keys=True`. -/
def sortPairs (l : List (String × String)) : List (String × String) :=
  l.foldr insertPairSorted []

/-- Render one sorted pair as `"key": value`. -/
def renderPair (p : String × String) : String := jsonStr p.1 ++ ": " ++ p.2

mutual
/-- Render a `JValue` the way `json.dumps(..., sort_keys=True)` does, with
the default `", "` / `": "` separators. -/
def jsonEncode : JValue → String
  | JValue.s v => jsonStr v
  | JValue.n v => toString v
  | JValue.b true => "true"
  | JValue.b false => "false"
  | JValue.null => "null"
  | JValue.arr items => "[" ++ String.intercalate ", " (encodeItems items) ++ "]"
  | JValue.obj entries =>
      "\x7b" ++ String.intercalate ", " ((sortPairs (encodePairs entries)).map renderPair) ++ "\x7d"

/-- Encode every element of a JSON array. -/
def encodeItems : List JValue → List String
  | [] => []
  | v :: rest => jsonEncode v :: encodeItems rest

/-- Encode the values of a JSON object, keeping keys. -/
def encodePairs : List (String × JValue) → List (String × String)
  | [] => []
  | (k, v) :: rest => (k, jsonEncode v) :: encodePairs rest
end

/-! ## audit.py: events, signing, the logger -/

/-- Enum `AuditEventType` from `security/audit.py`. -/
inductive AuditEventType where
  | configAccess
  | secretRead
  | credentialCreated
  | credentialUsed
  | credentialRevoked
  | credentialCleaned
  | cryptoOperation
  | authentication
  | authorization
  | securityViolation
deriving DecidableEq

/-- The `str` value of each `AuditEventType` member. -/
def eventTypeValue : AuditEventType → String
  | AuditEventType.configAccess => "config_access"
  | AuditEventType.secretRead => "secret_read"
  | AuditEventType.credentialCreated => "credential_created"
  | AuditEventType.credentialUsed => "credential_used"
  | AuditEventType.credentialRevoked => "credential_revoked"
  | AuditEventType.credentialCleaned => "credential_cleaned"
  | AuditEventType.cryptoOperation => "crypto_operation"
  | AuditEventType.authentication => "authentication"
  | AuditEventType.authorization => "authorization"
  | AuditEventType.securityViolation => "security_violation"

/-- The `AuditEvent` dataclass.  `timestamp` holds the rendered ISO form. -/
structure AuditEvent where
  eventType : AuditEventType
  timestamp : String
  actor : Option String
  resource : Option String
  action : Option String
  result : String
  details : List (String × JValue)
  ipAddress : Option String
  userAgent : Option String
  sessionId : Option String
  signature : Option String

/-- JSON rendering of an optional string field (`null` for `None`). -/
def encOptStr : Option String → String
  | none => "null"
  | some s => jsonStr s

/-- Method `AuditEvent._signing_payload`: the canonical `json.dumps(..., sort_keys=True)`
encoding of every field except `signature`.  The ten remaining keys are
written in their sorted order. -/
def signingPayload (e : AuditEvent) : String :=
  "\x7b\"action\": " ++ encOptStr e.action ++
  ", \"actor\": " ++ encOptStr e.actor ++
  ", \"details\": " ++ jsonEncode (JValue.obj e.details) ++
  ", \"event_type\": " ++ jsonStr (eventTypeValue e.eventType) ++
  ", \"ip_address\": " ++ encOptStr e.ipAddress ++
  ", \"resource\": " ++ encOptStr e.resource ++
  ", \"result\": " ++ jsonStr e.result ++
  ", \"session_id\": " ++ encOptStr e.sessionId ++
  ", \"timestamp\": " ++ jsonStr e.timestamp ++
  ", \"user_agent\": " ++ encOptStr e.userAgent ++ "\x7d"

/-- Method `AuditEvent.sign`: store the keyed MAC of the signing payload.
`mac` models `hmac.new(key, message, sha256).hexdigest()`. -/
def AuditEvent.sign (mac : Bytes → String → String) (k : Bytes) (e : AuditEvent) : AuditEvent :=
  { e with signature := some (mac k (signingPayload e)) }

/-- Method `AuditEvent.verify`: recompute the MAC over the payload and compare.
An absent signature is rejected; Python `if not self.signature` also
rejects the empty string. -/
def AuditEvent.verify (mac : Bytes → String → String) (k : Bytes) (e : AuditEvent) : Bool :=
  match e.signature with
  | none => false
  | some s => if s = "" then false else s == mac k (signingPayload e)

/-- The configured sensitive-field substrings of `AuditLogger`. -/
def sensitiveFields : List String :=
  ["password", "secret", "token", "key", "credential",
   "api_key", "private_key", "auth", "value", "payload"]

/-- Redaction marker used by `AuditLogger._filter_sensitive`. -/
def redactedMarker : String := "***REDACTED***"

/-- Predicate `any(s in key.lower() for s in self._sensitive_fields)`. -/
def isSensitiveKey (k : String) : Bool :=
  sensitiveFields.any (fun s => strContainsSub (lowerStr k).data s.data)

mutual
/-- Value handling of `AuditLogger._filter_sensitive`: recurse into a dict
value, keep every other value (lists included) unchanged. -/
def filterValue : JValue → JValue
  | JValue.obj entries => JValue.obj (filterSensitive entries)
  | v => v

/-- Method `AuditLogger._filter_sensitive`: redact entries whose key matches the
sensitive-field set, recursing only into dict values. -/
def filterSensitive : List (String × JValue) → List (String × JValue)
  | [] => []
  | (k, v) :: rest =>
      if isSensitiveKey k then (k, JValue.s redactedMarker) :: filterSensitive rest
      else (k, filterValue v) :: filterSensitive rest
end

/-- State of an `AuditLogger`.  `logFileExists` models whether a `log_file`
was configured; `written` is the persisted append-only file content. -/
structure LoggerState where
  logFileExists : Bool
  signingKey : Option Bytes
  filterOn : Bool
  buffer : List AuditEvent
  bufferSize : Nat
  autoFlush : Bool
  written : List AuditEvent

/-- Method `AuditLogger.flush`: no-op on an empty buffer, else append the buffered
events to the file (when one is configured) and clear the buffer. -/
def AuditLogger.flush (st : LoggerState) : LoggerState :=
  if st.buffer.isEmpty then st
  else
    { st with
      written := if st.logFileExists then st.written ++ st.buffer else st.written,
      buffer := [] }

/-- The event as `AuditLogger._add_event` stores it: details filtered first
(when filtering is enabled), then signed (when a signing key is configured). -/
def processedEvent (mac : Bytes → String → String) (st : LoggerState) (e : AuditEvent) : AuditEvent :=
  let e1 := if st.filterOn then { e with details := filterSensitive e.details } else e
  match st.signingKey with
  | some k => AuditEvent.sign mac k e1
  | none => e1

/-- Method `AuditLogger._add_event`: filter, sign, buffer, auto-flush at the
configured threshold. -/
def AuditLogger.addEvent (mac : Bytes → String → String) (st : LoggerState) (e : AuditEvent) :
    LoggerState :=
  let e2 := processedEvent mac st e
  let buf := st.buffer ++ [e2]
  if st.autoFlush && st.bufferSize ≤ buf.length then AuditLogger.flush { st with buffer := buf }
  else { st with buffer := buf }

/-- Fallback actor of `AuditLogger._get_actor` (the process user lookup via
`getpass` is external; its result is irrelevant to every claim). -/
def defaultActor : String := "system"

/-- Expression `actor or self._get_actor()`: `None` and the empty string both fall
back to the resolved process user. -/
def resolveActor : Option String → String
  | none => defaultActor
  | some a => if a == "" then defaultActor else a

/-- The event constructed by `AuditLogger.log` (the `ip_address`,
`user_agent` and `session_id` kwargs are absent at every call site this
development covers). -/
def AuditLogger.mkEvent (etype : AuditEventType) (resource action : Option String)
    (result : String) (details : List (String × JValue)) (actor : Option String)
    (ts : String) : AuditEvent :=
  { eventType := etype, timestamp := ts, actor := some (resolveActor actor),
    resource := resource, action := action, result := result, details := details,
    ipAddress := none, userAgent := none, sessionId := none, signature := none }

/-- Method `AuditLogger.log`: construct the event and hand it to `_add_event`. -/
def AuditLogger.log (mac : Bytes → String → String) (st : LoggerState)
    (etype : AuditEventType) (resource action : Option String) (result : String)
    (details : List (String × JValue)) (actor : Option String) (ts : String) : LoggerState :=
  AuditLogger.addEvent mac st (AuditLogger.mkEvent etype resource action result details actor ts)

/-- All events the logger has accepted, persisted ones first. -/
def allEvents (st : LoggerState) : List AuditEvent := st.written ++ st.buffer

/-- Number of events of a given type in a list. -/
def countType (t : AuditEventType) (l : List AuditEvent) : Nat :=
  List.countP (fun e => e.eventType == t) l

/-! ## crypto.py: CryptoManager -/

/-- The external AES-256-GCM primitive (the `AESGCM` object of `cryptography` for
a fixed key).  `enc nonce plaintext ad` returns ciphertext with the 16-byte
tag appended; `dec nonce data ad` returns the plaintext or `none` when
authentication fails (the library raises `InvalidTag`, a single exception
carrying no cause). -/
structure AESGCMPrim where
  enc : Bytes → Bytes → Option Bytes → Bytes
  dec : Bytes → Bytes → Option Bytes → Option Bytes

/-- The `EncryptedData` dataclass of `config/crypto.py`. -/
structure EncryptedData where
  ciphertext : Bytes
  nonce : Bytes
  tag : Bytes
deriving DecidableEq

/-- Errors raised by the crypto module: `ValueError` (a Python builtin) and
the own `EncryptionError` of the module. -/
inductive CryptoErr where
  | valueError (msg : String)
  | encryptionError (msg : String)
deriving DecidableEq

/-- Method `CryptoManager.encrypt`: reject empty plaintext with `ValueError`, call
the AEAD with a fresh nonce (threaded explicitly here), split the tag off
the last 16 bytes.  The slices `[:-16]` and `[-16:]` are `take (n-16)` and
`drop (n-16)` with truncated subtraction, matching Python clamping. -/
def CryptoManager.encrypt (g : AESGCMPrim) (nonce : Bytes) (plaintext : Bytes)
    (ad : Option Bytes) : Except CryptoErr EncryptedData :=
  if plaintext.isEmpty then Except.error (CryptoErr.valueError "Plaintext cannot be empty")
  else
    let cwt := g.enc nonce plaintext ad
    Except.ok
      { ciphertext := cwt.take (cwt.length - 16),
        nonce := nonce,
        tag := cwt.drop (cwt.length - 16) }

/-- Method `CryptoManager.decrypt`: re-concatenate ciphertext and tag, call the
AEAD, wrap every failure in the one generic `EncryptionError`. -/
def CryptoManager.decrypt (g : AESGCMPrim) (e : EncryptedData) (ad : Option Bytes) :
    Except CryptoErr Bytes :=
  match g.dec e.nonce (e.ciphertext ++ e.tag) ad with
  | some p => Except.ok p
  | none => Except.error (CryptoErr.encryptionError "Decryption failed")

/-- Pipeline `decrypt(encrypt(P, A), A)` as one function. -/
def encryptThenDecrypt (g : AESGCMPrim) (nonce : Bytes) (plaintext : Bytes)
    (ad : Option Bytes) : Except CryptoErr Bytes :=
  (CryptoManager.encrypt g nonce plaintext ad).bind (fun e => CryptoManager.decrypt g e ad)

/-- Tests whether this outcome is the generic `EncryptionError`. -/
def isEncryptionError : Except CryptoErr EncryptedData → Bool
  | Except.error (CryptoErr.encryptionError _) => true
  | _ => false

/-- A trivial AEAD instance used only to instantiate hypotheses of the
crypto theorems at concrete inputs. -/
def idPrim : AESGCMPrim :=
  { enc := fun _ p _ => p, dec := fun _ c _ => some c }

/-- An AEAD instance that rejects everything, used to instantiate the
fail-closed theorem. -/
def rejectPrim : AESGCMPrim :=
  { enc := fun _ p _ => p ++ List.replicate 16 0, dec := fun _ _ _ => none }

/-- C1: for a non-empty plaintext and an AEAD primitive satisfying the
round-trip contract of the library at these inputs, decrypting the result of
`CryptoManager.encrypt` with the same key (primitive) and associated data
returns exactly the plaintext. -/
theorem crypto_encrypt_decrypt_roundtrip (g : AESGCMPrim) (nonce p : Bytes)
    (ad : Option Bytes) (hp : p ≠ [])
    (hdec : g.dec nonce (g.enc nonce p ad) ad = some p) :
    encryptThenDecrypt g nonce p ad = Except.ok p := by
  have hne : p.isEmpty = false := by
    cases p with
    | nil => exact absurd rfl hp
    | cons a l => rfl
  unfold encryptThenDecrypt CryptoManager.encrypt CryptoManager.decrypt
  rw [hne]
  simp only [Bool.false_eq_true, if_false, Except.bind]
  rw [List.take_append_drop, hdec]

/-- C1 witness at a concrete primitive and input. -/
theorem crypto_encrypt_decrypt_roundtrip_witness :
    encryptThenDecrypt idPrim [0] [1, 2] none = Except.ok [1, 2] :=
  crypto_encrypt_decrypt_roundtrip idPrim [0] [1, 2] none (by decide) rfl

/-- C2: whenever the AEAD primitive rejects the re-assembled blob (tag
mismatch, truncation and associated-data mismatch are all signalled by the
library as the same cause-free `InvalidTag`), `CryptoManager.decrypt`
raises the single generic `EncryptionError`. -/
theorem crypto_decrypt_fails_closed (g : AESGCMPrim) (e : EncryptedData) (ad : Option Bytes)
    (hrej : g.dec e.nonce (e.ciphertext ++ e.tag) ad = none) :
    CryptoManager.decrypt g e ad =
      Except.error (CryptoErr.encryptionError "Decryption failed") := by
  unfold CryptoManager.decrypt
  rw [hrej]

/-- C2 witness at a concrete rejecting primitive and blob. -/
theorem crypto_decrypt_fails_closed_witness :
    CryptoManager.decrypt rejectPrim { ciphertext := [5], nonce := [0], tag := [1] } none =
      Except.error (CryptoErr.encryptionError "Decryption failed") :=
  crypto_decrypt_fails_closed rejectPrim { ciphertext := [5], nonce := [0], tag := [1] } none rfl

/-- C8 counterexample: on the empty plaintext `CryptoManager.encrypt` fails
with the Python builtin `ValueError("Plaintext cannot be empty")`, not with
`EncryptionError` as the claim states. -/
theorem encrypt_empty_counterexample :
    CryptoManager.encrypt idPrim [0] [] none =
        Except.error (CryptoErr.valueError "Plaintext cannot be empty") ∧
      isEncryptionError (CryptoManager.encrypt idPrim [0] [] none) = false :=
  ⟨rfl, rfl⟩

/-- C8 amended: for the empty plaintext, `CryptoManager.encrypt` fails with
`ValueError("Plaintext cannot be empty")` (zero-length payloads are never
encrypted, but the error raised is `ValueError`, not `EncryptionError`). -/
theorem encrypt_empty_valueerror_amended (g : AESGCMPrim) (nonce : Bytes) (ad : Option Bytes) :
    CryptoManager.encrypt g nonce [] ad =
      Except.error (CryptoErr.valueError "Plaintext cannot be empty") := rfl

/-! ## Claims about audit events and redaction -/

/-- A concrete keyed-MAC instance used only to instantiate hypotheses of the
audit theorems (the key and the message are both recoverable, so distinct
keys or messages give distinct outputs on the witness inputs). -/
def testMac (k : Bytes) (m : String) : String :=
  String.intercalate "," (k.map toString) ++ ":" ++ m

mutual
/-- Check of one detail value: inside every nested dict (not entered through
a list), sensitive keys carry only the redaction marker. -/
def noPlainValue : JValue → Bool
  | JValue.obj entries => noPlainSensitive entries
  | _ => true

/-- After filtering, every key of a dict (recursively through nested dicts)
that matches the sensitive set maps to the redaction marker. -/
def noPlainSensitive : List (String × JValue) → Bool
  | [] => true
  | (k, v) :: rest =>
      (if isSensitiveKey k then
        match v with
        | JValue.s m => m == redactedMarker
        | _ => false
      else noPlainValue v) && noPlainSensitive rest
end

mutual
/-- The check the specification describes: recursion through nested dicts
AND nested lists. -/
def deepNoPlainValue : JValue → Bool
  | JValue.obj entries => deepNoPlainSensitive entries
  | JValue.arr items => deepNoPlainItems items
  | _ => true

/-- Deep check over list elements. -/
def deepNoPlainItems : List JValue → Bool
  | [] => true
  | v :: rest => deepNoPlainValue v && deepNoPlainItems rest

/-- Deep check over dict entries, recursing into lists as well. -/
def deepNoPlainSensitive : List (String × JValue) → Bool
  | [] => true
  | (k, v) :: rest =>
      (if isSensitiveKey k then
        match v with
        | JValue.s m => m == redactedMarker
        | _ => false
      else deepNoPlainValue v) && deepNoPlainSensitive rest
end

/-- Filtering leaves no unredacted sensitive key in any dict reachable
without passing through a list. -/
theorem noPlainSensitive_filterSensitive : ∀ l, noPlainSensitive (filterSensitive l) = true :=
  filterSensitive.induct
    (fun v => noPlainValue (filterValue v) = true)
    (fun l => noPlainSensitive (filterSensitive l) = true)
    (fun entries ih => by simpa [filterValue, noPlainValue] using ih)
    (fun v hno => by
      cases v with
      | obj entries => exact False.elim (hno entries rfl)
      | s a => rfl
      | n a => rfl
      | b a => rfl
      | null => rfl
      | arr items => rfl)
    (by simp [filterSensitive, noPlainSensitive])
    (fun k v rest hk ih => by
      simp [filterSensitive, noPlainSensitive, hk, ih])
    (fun k v rest hk ihv ih => by
      simp [filterSensitive, noPlainSensitive, hk, ihv, ih])

/-- C3: signing then verifying with the same key succeeds; a mutation of any
field except `signature` (here: any event with the same signature whose
payload MACs differently) fails verification; verifying with a key whose
MAC differs fails.  The inequality hypotheses are the collision-freeness
the HMAC-SHA256 primitive provides on these inputs. -/
theorem audit_event_sign_verify (mac : Bytes → String → String) (k k2 : Bytes)
    (e e2 : AuditEvent)
    (hne : mac k (signingPayload e) ≠ "")
    (hsig : e2.signature = (AuditEvent.sign mac k e).signature)
    (hmut : mac k (signingPayload e2) ≠ mac k (signingPayload e))
    (hk2 : mac k2 (signingPayload e) ≠ mac k (signingPayload e)) :
    AuditEvent.verify mac k (AuditEvent.sign mac k e) = true ∧
    AuditEvent.verify mac k e2 = false ∧
    AuditEvent.verify mac k2 (AuditEvent.sign mac k e) = false := by
  have h2 : e2.signature = some (mac k (signingPayload e)) := hsig
  refine ⟨?_, ?_, ?_⟩
  · show (if mac k (signingPayload e) = "" then false
      else mac k (signingPayload e) == mac k (signingPayload e)) = true
    rw [if_neg hne]
    simp
  · unfold AuditEvent.verify
    rw [h2]
    by_cases hz : mac k (signingPayload e) = ""
    · simp [hz]
    · simp only [if_neg hz]
      rw [beq_eq_false_iff_ne]
      exact fun hEq => hmut hEq.symm
  · show (if mac k (signingPayload e) = "" then false
      else mac k (signingPayload e) == mac k2 (signingPayload e)) = false
    by_cases hz : mac k (signingPayload e) = ""
    · simp [hz]
    · simp only [if_neg hz]
      rw [beq_eq_false_iff_ne]
      exact fun hEq => hk2 hEq.symm

/-- Concrete event for the audit signing witness. -/
def eC3 : AuditEvent :=
  { eventType := AuditEventType.secretRead, timestamp := "2024-01-01T00:00:00+00:00",
    actor := some "alice", resource := some "api_key", action := some "read",
    result := "success", details := [], ipAddress := none, userAgent := none,
    sessionId := none, signature := none }

/-- Event `eC3` signed with key `[1]`, then mutated at `resource`. -/
def eC3mut : AuditEvent :=
  { AuditEvent.sign testMac [1] eC3 with resource := some "other_key" }

/-- C3 witness: sign/verify round trip, resource mutation and wrong key at
concrete inputs. -/
theorem audit_event_sign_verify_witness :
    AuditEvent.verify testMac [1] (AuditEvent.sign testMac [1] eC3) = true ∧
    AuditEvent.verify testMac [1] eC3mut = false ∧
    AuditEvent.verify testMac [2] (AuditEvent.sign testMac [1] eC3) = false :=
  audit_event_sign_verify testMac [1] [2] eC3 eC3mut (by decide) rfl (by decide) (by decide)

/-- C4 amended: detail keys matching the sensitive set are replaced with the
redaction marker recursively through nested dicts (not lists: a list value
is kept unchanged), and `_add_event` applies the filter before signing, so
the signature covers the redacted details. -/
theorem audit_filter_redaction_amended :
    (∀ l, noPlainSensitive (filterSensitive l) = true) ∧
    (∀ (mac : Bytes → String → String) (k : Bytes) (e : AuditEvent)
      (buffer written : List AuditEvent) (bsize : Nat) (hasFile : Bool),
      AuditLogger.addEvent mac
          { logFileExists := hasFile, signingKey := some k, filterOn := true,
            buffer := buffer, bufferSize := bsize, autoFlush := false, written := written } e =
        { logFileExists := hasFile, signingKey := some k, filterOn := true,
          buffer := buffer ++
            [AuditEvent.sign mac k { e with details := filterSensitive e.details }],
          bufferSize := bsize, autoFlush := false, written := written }) :=
  ⟨noPlainSensitive_filterSensitive, fun _ _ _ _ _ _ _ => rfl⟩

/-- Details with a sensitive key nested inside a list. -/
def listDetails : List (String × JValue) :=
  [("items", JValue.arr [JValue.obj [("password", JValue.s "hunter2")]])]

/-- C4 counterexample: `_filter_sensitive` does not recurse through lists —
a sensitive key nested inside a list value survives filtering unredacted,
so redaction is not applied "recursively through nested maps AND nested
lists" as claimed. -/
theorem audit_filter_list_counterexample :
    filterSensitive listDetails = listDetails ∧
    deepNoPlainSensitive (filterSensitive listDetails) = false :=
  ⟨rfl, rfl⟩

/-! ## credential.py: SecurityCredentialManager -/

/-- Enum `CredentialStatus`. -/
inductive CredStatus where
  | active
  | expired
  | revoked
  | compromised
  | pendingRotation
deriving DecidableEq

/-- The `CredentialRecord` dataclass (times in abstract ticks). -/
structure CredentialRecord where
  id : String
  name : String
  valueHash : String
  status : CredStatus
  createdAt : Nat
  expiresAt : Option Nat
  lastRotated : Option Nat
  rotationInterval : Option Nat
  metadata : List (String × JValue)

/-- The `CredentialLeak` dataclass. -/
structure CredentialLeak where
  credentialId : String
  detectedAt : Nat
  leakSource : String
  evidence : String
  severity : String
deriving DecidableEq

/-- One entry of the per-credential access history deque. -/
structure AccessEntry where
  time : Nat
  success : Bool
deriving DecidableEq

/-- State of a `SecurityCredentialManager`.  The leak callbacks are omitted:
they cannot modify this state and their exceptions are swallowed. -/
structure ManagerState where
  records : List (String × CredentialRecord)
  leaks : List CredentialLeak
  accessHistory : List (String × List AccessEntry)
  audit : Option LoggerState

/-- In-place mutation of the value stored under one key of a Python dict. -/
def updateAssoc {α : Type} (k : String) (f : α → α) (l : List (String × α)) :
    List (String × α) :=
  l.map (fun p => if p.1 == k then (p.1, f p.2) else p)

/-- Property `CredentialRecord.is_expired`: `utcnow() > expires_at`. -/
def recordIsExpired (now : Nat) (r : CredentialRecord) : Bool :=
  match r.expiresAt with
  | none => false
  | some t => t < now

/-- Property `CredentialRecord.needs_rotation`. -/
def needsRotation (now : Nat) (r : CredentialRecord) : Bool :=
  match r.rotationInterval, r.lastRotated with
  | some ri, some lr => lr + ri < now
  | _, _ => false

/-- Append to a `deque(maxlen=1000)`: the oldest entries beyond the window
are evicted. -/
def evictAppend (l : List AccessEntry) (e : AccessEntry) : List AccessEntry :=
  let l1 := l ++ [e]
  if 1000 < l1.length then l1.drop (l1.length - 1000) else l1

/-- Method `SecurityCredentialManager._record_access` (the anomaly-pattern branch
only emits a log-file warning and is stateless). -/
def recordAccess (now : Nat) (st : ManagerState) (credId : String) (success : Bool) :
    ManagerState :=
  match List.lookup credId st.accessHistory with
  | none => st
  | some _ =>
      { st with accessHistory :=
          updateAssoc credId (fun h => evictAppend h ⟨now, success⟩) st.accessHistory }

/-- Method `SecurityCredentialManager.verify_credential`.  `hashV` models the
sha256 hex digest `_hash_value`. -/
def verifyCredential (hashV : String → String) (now : Nat) (st : ManagerState)
    (credId value : String) : Bool × ManagerState :=
  match List.lookup credId st.records with
  | none => (false, st)
  | some record =>
    if record.status ≠ CredStatus.active then (false, st)
    else if recordIsExpired now record then
      (false,
        { st with records :=
            updateAssoc credId (fun r => { r with status := CredStatus.expired }) st.records })
    else
      let valid := hashV value == record.valueHash
      (valid, recordAccess now st credId valid)

/-- Route a manager `self._audit.log(...)` call through an optional logger. -/
def auditLogOpt (mac : Bytes → String → String) (audit : Option LoggerState)
    (etype : AuditEventType) (resource action : Option String) (result : String)
    (details : List (String × JValue)) (actor : Option String) (ts : String) :
    Option LoggerState :=
  match audit with
  | none => none
  | some lg => some (AuditLogger.log mac lg etype resource action result details actor ts)

/-- Method `SecurityCredentialManager.revoke_credential`. -/
def revokeCredential (mac : Bytes → String → String) (now : Nat) (st : ManagerState)
    (credId reason : String) : Bool × ManagerState :=
  match List.lookup credId st.records with
  | none => (false, st)
  | some record =>
      (true,
        { st with
          records := updateAssoc credId (fun r => { r with status := CredStatus.revoked })
            st.records,
          audit := auditLogOpt mac st.audit AuditEventType.credentialRevoked (some record.name)
            none "success" [("id", JValue.s credId), ("reason", JValue.s reason)] none
            (toString now) })

/-- Helper `AuditLogger.log_security_violation` through an optional logger. -/
def logSecurityViolationOpt (mac : Bytes → String → String) (audit : Option LoggerState)
    (vtype : String) (details : List (String × JValue)) (ts : String) : Option LoggerState :=
  auditLogOpt mac audit AuditEventType.securityViolation none (some "violation") "denied"
    (("type", JValue.s vtype) :: details) none ts

/-- The first half of `report_leak`: append the `CredentialLeak` and mark
the record Compromised (the state just before the automatic revocation). -/
def reportLeakMark (now : Nat) (st : ManagerState) (credId source evidence severity : String) :
    ManagerState :=
  { st with
    leaks := st.leaks ++ [{ credentialId := credId, detectedAt := now, leakSource := source,
                            evidence := evidence, severity := severity }],
    records := updateAssoc credId (fun r => { r with status := CredStatus.compromised })
      st.records }

/-- Method `SecurityCredentialManager.report_leak`: record the leak, mark
Compromised, auto-revoke, run callbacks (stateless here), then emit the
`security_violation` audit event. -/
def reportLeak (mac : Bytes → String → String) (now : Nat) (st : ManagerState)
    (credId source evidence severity : String) : ManagerState :=
  match List.lookup credId st.records with
  | none => st
  | some _ =>
    let st1 := reportLeakMark now st credId source evidence severity
    let st2 := (revokeCredential mac now st1 credId (String.append "leak detected: " source)).2
    let au := logSecurityViolationOpt mac st2.audit "credential_leak"
      [("credential_id", JValue.s credId), ("leak_source", JValue.s source),
       ("severity", JValue.s severity)] (toString now)
    { st2 with audit := au }

/-- Per-record effect of `rotate_credential`: replace the hash, reset
`last_rotated`, reactivate only Expired or Revoked records. -/
def rotateRecord (hashV : String → String) (now : Nat) (newValue : String)
    (r : CredentialRecord) : CredentialRecord :=
  let r1 := { r with valueHash := hashV newValue, lastRotated := some now }
  if r1.status = CredStatus.expired ∨ r1.status = CredStatus.revoked then
    { r1 with status := CredStatus.active }
  else r1

/-- Method `SecurityCredentialManager.rotate_credential`: replace the hash, reset
`last_rotated`, reactivate only Expired or Revoked records. -/
def rotateCredential (hashV : String → String) (mac : Bytes → String → String) (now : Nat)
    (st : ManagerState) (credId newValue : String) : Bool × ManagerState :=
  match List.lookup credId st.records with
  | none => (false, st)
  | some record =>
      (true,
        { st with
          records := updateAssoc credId (rotateRecord hashV now newValue) st.records,
          audit := auditLogOpt mac st.audit AuditEventType.credentialCreated
            (some record.name) (some "rotate") "success" [("id", JValue.s credId)] none
            (toString now) })

/-- Condition under which `check_rotation_needed` flags a record. -/
def shouldMarkRotation (now : Nat) (r : CredentialRecord) : Bool :=
  (r.status == CredStatus.active) && needsRotation now r

/-- Per-record effect of `check_rotation_needed`. -/
def markRotationIf (now : Nat) (r : CredentialRecord) : CredentialRecord :=
  if shouldMarkRotation now r then { r with status := CredStatus.pendingRotation } else r

/-- Method `SecurityCredentialManager.check_rotation_needed`. -/
def checkRotationNeeded (now : Nat) (st : ManagerState) : List String × ManagerState :=
  ((st.records.filter (fun p => shouldMarkRotation now p.2)).map (fun p => p.1),
   { st with records := st.records.map (fun p => (p.1, markRotationIf now p.2)) })

/-- Every audit event the optional manager logger has accepted. -/
def mgrAllEvents (st : ManagerState) : List AuditEvent :=
  match st.audit with
  | none => []
  | some lg => allEvents lg

/-! ## Helper lemmas -/

/-- Looking up the updated key returns the mapped value. -/
theorem lookup_updateAssoc {α : Type} (k : String) (f : α → α) (l : List (String × α)) :
    List.lookup k (updateAssoc k f l) = (List.lookup k l).map f := by
  induction l with
  | nil => rfl
  | cons p rest ih =>
    rcases p with ⟨a, b⟩
    by_cases h : k = a
    · subst h
      simp only [updateAssoc, List.map, beq_self_eq_true, if_true]
      rw [List.lookup, List.lookup, beq_self_eq_true]
      rfl
    · have ha : (a == k) = false := by simp [Ne.symm h]
      have hk : (k == a) = false := by simp [h]
      simp only [updateAssoc, List.map] at ih ⊢
      rw [ha]
      simp only [Bool.false_eq_true, if_false]
      rw [List.lookup, List.lookup, hk]
      exact ih

/-- A successful lookup gives membership. -/
theorem lookup_mem {α : Type} {k : String} {v : α} {l : List (String × α)}
    (h : List.lookup k l = some v) : (k, v) ∈ l := by
  induction l with
  | nil => cases h
  | cons p rest ih =>
    rcases p with ⟨a, b⟩
    by_cases hk : k = a
    · subst hk
      rw [List.lookup] at h
      simp at h
      subst h
      exact List.mem_cons_self _ _
    · rw [List.lookup] at h
      have : (k == a) = false := by simp [hk]
      rw [this] at h
      exact List.mem_cons_of_mem _ (ih h)

/-- Lookup commutes with a key-preserving map over the values. -/
theorem lookup_mapSnd {α β : Type} (k : String) (g : α → β) (l : List (String × α)) :
    List.lookup k (l.map (fun p => (p.1, g p.2))) = (List.lookup k l).map g := by
  induction l with
  | nil => rfl
  | cons p rest ih =>
    rcases p with ⟨a, b⟩
    by_cases h : k = a
    · subst h
      simp [List.lookup]
    · have hk : (k == a) = false := by simp [h]
      simp only [List.map]
      rw [List.lookup, List.lookup, hk]
      exact ih

/-- Adding an event never changes whether a log file is configured. -/
theorem logFileExists_addEvent (mac : Bytes → String → String) (st : LoggerState)
    (e : AuditEvent) : (AuditLogger.addEvent mac st e).logFileExists = st.logFileExists := by
  unfold AuditLogger.addEvent AuditLogger.flush
  dsimp only
  split
  · split <;> rfl
  · rfl

/-- With a log file configured, `_add_event` appends exactly the processed
event to the stream of accepted events, whether or not it auto-flushes. -/
theorem allEvents_addEvent (mac : Bytes → String → String) (st : LoggerState) (e : AuditEvent)
    (hfile : st.logFileExists = true) :
    allEvents (AuditLogger.addEvent mac st e) = allEvents st ++ [processedEvent mac st e] := by
  unfold AuditLogger.addEvent AuditLogger.flush
  dsimp only
  split
  · split
    · next hempty =>
      refine absurd hempty ?_
      cases h : st.buffer <;> simp [List.isEmpty]
    · simp [allEvents, hfile, List.append_assoc]
  · simp [allEvents, List.append_assoc]

/-- Filtering and signing keep the event type. -/
theorem eventType_processedEvent (mac : Bytes → String → String) (st : LoggerState)
    (e : AuditEvent) : (processedEvent mac st e).eventType = e.eventType := by
  unfold processedEvent
  cases st.signingKey <;> by_cases h : st.filterOn <;> simp [h, AuditEvent.sign]

/-- Event counts add over list append. -/
theorem countType_append (t : AuditEventType) (l1 l2 : List AuditEvent) :
    countType t (l1 ++ l2) = countType t l1 + countType t l2 :=
  List.countP_append _ _ _

/-- Event count of a singleton. -/
theorem countType_single (t : AuditEventType) (e : AuditEvent) :
    countType t [e] = if e.eventType = t then 1 else 0 := by
  simp [countType, List.countP_singleton, beq_iff_eq]

/-! ## Claims about the credential manager -/

/-- C5: on a registered credential id, `report_leak` marks the record
Compromised before the automatic revocation, leaves it Revoked, and adds
exactly one `security_violation` event to the audit stream. -/
theorem credential_leak_report (mac : Bytes → String → String) (now : Nat) (st : ManagerState)
    (credId source evidence severity : String) (r : CredentialRecord) (lg : LoggerState)
    (hrec : List.lookup credId st.records = some r)
    (haud : st.audit = some lg)
    (hfile : lg.logFileExists = true) :
    List.lookup credId (reportLeakMark now st credId source evidence severity).records =
      some { r with status := CredStatus.compromised } ∧
    List.lookup credId (reportLeak mac now st credId source evidence severity).records =
      some { r with status := CredStatus.revoked } ∧
    countType AuditEventType.securityViolation
        (mgrAllEvents (reportLeak mac now st credId source evidence severity)) =
      countType AuditEventType.securityViolation (mgrAllEvents st) + 1 := by
  have h1 : List.lookup credId (reportLeakMark now st credId source evidence severity).records =
      some { r with status := CredStatus.compromised } := by
    unfold reportLeakMark
    dsimp only
    rw [lookup_updateAssoc, hrec]
    rfl
  refine ⟨h1, ?_, ?_⟩
  · unfold reportLeak
    rw [hrec]
    dsimp only
    unfold revokeCredential
    rw [h1]
    dsimp only
    rw [lookup_updateAssoc, h1]
    rfl
  · unfold reportLeak
    rw [hrec]
    dsimp only
    unfold revokeCredential
    rw [h1]
    dsimp only
    have haud1 : (reportLeakMark now st credId source evidence severity).audit = some lg := by
      unfold reportLeakMark
      dsimp only
      exact haud
    unfold logSecurityViolationOpt auditLogOpt
    rw [haud1]
    dsimp only
    unfold mgrAllEvents
    rw [haud]
    dsimp only
    unfold AuditLogger.log
    have hf2 : (AuditLogger.addEvent mac lg
        (AuditLogger.mkEvent AuditEventType.credentialRevoked
          (some ({ r with status := CredStatus.compromised }).name) none "success"
          [("id", JValue.s credId),
           ("reason", JValue.s (String.append "leak detected: " source))] none
          (toString now))).logFileExists = true := by
      rw [logFileExists_addEvent]
      exact hfile
    rw [allEvents_addEvent _ _ _ hf2, allEvents_addEvent _ _ _ hfile]
    rw [countType_append, countType_append, countType_single, countType_single]
    rw [eventType_processedEvent, eventType_processedEvent]
    simp [AuditLogger.mkEvent]

/-- A concrete stand-in for the sha256 hex digest `_hash_value`. -/
def hashT (s : String) : String := String.append "#" s

/-- Logger with a configured file, no signing key, default settings. -/
def lgW : LoggerState :=
  { logFileExists := true, signingKey := none, filterOn := true, buffer := [],
    bufferSize := 100, autoFlush := false, written := [] }

/-- A registered Active credential record. -/
def recW : CredentialRecord :=
  { id := "c1", name := "db_pw", valueHash := hashT "P@ssw0rd123",
    status := CredStatus.active, createdAt := 0, expiresAt := none,
    lastRotated := some 0, rotationInterval := none, metadata := [] }

/-- Manager state holding `recW` with an attached audit logger. -/
def stW5 : ManagerState :=
  { records := [("c1", recW)], leaks := [], accessHistory := [("c1", [])],
    audit := some lgW }

/-- C5 witness at a concrete manager state. -/
theorem credential_leak_report_witness :
    List.lookup "c1" (reportLeakMark 9 stW5 "c1" "log" "seen in log" "high").records =
      some { recW with status := CredStatus.compromised } ∧
    List.lookup "c1" (reportLeak testMac 9 stW5 "c1" "log" "seen in log" "high").records =
      some { recW with status := CredStatus.revoked } ∧
    countType AuditEventType.securityViolation
        (mgrAllEvents (reportLeak testMac 9 stW5 "c1" "log" "seen in log" "high")) =
      countType AuditEventType.securityViolation (mgrAllEvents stW5) + 1 :=
  credential_leak_report testMac 9 stW5 "c1" "log" "seen in log" "high" recW lgW rfl rfl rfl

/-- A registered but Revoked credential record. -/
def recC7 : CredentialRecord :=
  { id := "c2", name := "api", valueHash := hashT "v",
    status := CredStatus.revoked, createdAt := 0, expiresAt := none,
    lastRotated := some 0, rotationInterval := none, metadata := [] }

/-- Manager state holding only `recC7`, with an empty access history. -/
def stC7 : ManagerState :=
  { records := [("c2", recC7)], leaks := [], accessHistory := [("c2", [])],
    audit := none }

/-- A registered Active credential record whose TTL has already lapsed. -/
def recC7e : CredentialRecord :=
  { id := "c5", name := "tmp", valueHash := hashT "v",
    status := CredStatus.active, createdAt := 0, expiresAt := some 1,
    lastRotated := some 0, rotationInterval := none, metadata := [] }

/-- Manager state holding only `recC7e`, with an empty access history. -/
def stC7e : ManagerState :=
  { records := [("c5", recC7e)], leaks := [], accessHistory := [("c5", [])],
    audit := none }

/-- C7 counterexample: two `verify_credential` calls on registered ids that
append nothing, contradicting "every call ... appends an entry".  First, a
record whose status is not Active (here Revoked): the whole state — in
particular the access history of the credential — is unchanged.  Second, a
record whose expiry is observed at check time: the call returns false and
flips the status to Expired, yet its access history is still empty. -/
theorem verify_history_counterexample :
    (verifyCredential hashT 5 stC7 "c2" "v" = (false, stC7) ∧
      List.lookup "c2" (verifyCredential hashT 5 stC7 "c2" "v").2.accessHistory = some []) ∧
    ((verifyCredential hashT 5 stC7e "c5" "v").1 = false ∧
      List.lookup "c5" (verifyCredential hashT 5 stC7e "c5" "v").2.records =
        some { recC7e with status := CredStatus.expired } ∧
      List.lookup "c5" (verifyCredential hashT 5 stC7e "c5" "v").2.accessHistory = some []) :=
  ⟨⟨rfl, rfl⟩, ⟨rfl, rfl, rfl⟩⟩

/-- C7 amended: only `verify_credential` calls that reach the hash
comparison (record found, Active, not expired at check time) append an
entry to the per-credential history; a call on a registered record whose
status is not Active returns false without touching any state; a call on
an Active record whose expiry is observed returns false, flips only the
status to Expired, and records nothing in the access history.  The
history is bounded: appending keeps at most 1000 entries, keeps the new
entry last, and only ever evicts from the oldest end. -/
theorem verify_access_history_amended :
    (∀ (hashV : String → String) (now : Nat) (st : ManagerState) (credId value : String)
      (r : CredentialRecord) (hist : List AccessEntry),
      List.lookup credId st.records = some r →
      r.status = CredStatus.active →
      recordIsExpired now r = false →
      List.lookup credId st.accessHistory = some hist →
      (verifyCredential hashV now st credId value).1 = (hashV value == r.valueHash) ∧
      List.lookup credId (verifyCredential hashV now st credId value).2.accessHistory =
        some (evictAppend hist ⟨now, hashV value == r.valueHash⟩)) ∧
    (∀ (hashV : String → String) (now : Nat) (st : ManagerState) (credId value : String)
      (r : CredentialRecord),
      List.lookup credId st.records = some r →
      r.status ≠ CredStatus.active →
      verifyCredential hashV now st credId value = (false, st)) ∧
    (∀ (hashV : String → String) (now : Nat) (st : ManagerState) (credId value : String)
      (r : CredentialRecord),
      List.lookup credId st.records = some r →
      r.status = CredStatus.active →
      recordIsExpired now r = true →
      (verifyCredential hashV now st credId value).1 = false ∧
      List.lookup credId (verifyCredential hashV now st credId value).2.records =
        some { r with status := CredStatus.expired } ∧
      (verifyCredential hashV now st credId value).2.accessHistory = st.accessHistory) ∧
    (∀ (hist : List AccessEntry) (e : AccessEntry),
      (evictAppend hist e).length = min (hist.length + 1) 1000 ∧
      (evictAppend hist e).getLast? = some e ∧
      List.IsSuffix (evictAppend hist e) (hist ++ [e])) := by
  refine ⟨?_, ?_, ?_, ?_⟩
  · intro hashV now st credId value r hist hrec hact hexp hhist
    unfold verifyCredential
    rw [hrec]
    dsimp only
    rw [if_neg (by simp [hact])]
    rw [hexp]
    simp only [Bool.false_eq_true, if_false]
    refine ⟨by trivial, ?_⟩
    unfold recordAccess
    rw [hhist]
    dsimp only
    rw [lookup_updateAssoc, hhist]
    rfl
  · intro hashV now st credId value r hrec hact
    unfold verifyCredential
    rw [hrec]
    dsimp only
    rw [if_pos hact]
  · intro hashV now st credId value r hrec hact hexp
    unfold verifyCredential
    rw [hrec]
    dsimp only
    rw [if_neg (by simp [hact])]
    rw [hexp]
    rw [if_pos rfl]
    refine ⟨rfl, ?_, rfl⟩
    have h2 := lookup_updateAssoc credId
      (fun r0 => { r0 with status := CredStatus.expired }) st.records
    rw [hrec] at h2
    exact h2
  · intro hist e
    unfold evictAppend
    dsimp only
    by_cases h : 1000 < (hist ++ [e]).length
    · rw [if_pos h]
      have hlen : (hist ++ [e]).length = hist.length + 1 := by simp
      have hle : (hist ++ [e]).length - 1000 ≤ hist.length := by omega
      refine ⟨?_, ?_, ?_⟩
      · rw [List.length_drop]
        omega
      · rw [List.drop_append_of_le_length hle, List.getLast?_concat]
      · exact List.drop_suffix _ _
    · rw [if_neg h]
      refine ⟨?_, List.getLast?_concat _, List.suffix_refl _⟩
      simp at h ⊢
      omega

/-- C7 witness: a recorded successful verification with its history append,
a non-Active registered credential left untouched, an observed expiry that
flips only the status, and the eviction bound, all at concrete inputs. -/
theorem verify_access_history_amended_witness :
    ((verifyCredential hashT 1 stW5 "c1" "P@ssw0rd123").1 =
        (hashT "P@ssw0rd123" == recW.valueHash) ∧
      List.lookup "c1" (verifyCredential hashT 1 stW5 "c1" "P@ssw0rd123").2.accessHistory =
        some (evictAppend [] ⟨1, hashT "P@ssw0rd123" == recW.valueHash⟩)) ∧
    verifyCredential hashT 5 stC7 "c2" "x" = (false, stC7) ∧
    ((verifyCredential hashT 5 stC7e "c5" "x").1 = false ∧
      List.lookup "c5" (verifyCredential hashT 5 stC7e "c5" "x").2.records =
        some { recC7e with status := CredStatus.expired } ∧
      (verifyCredential hashT 5 stC7e "c5" "x").2.accessHistory = stC7e.accessHistory) ∧
    ((evictAppend [] ⟨1, true⟩).length = min 1 1000 ∧
      (evictAppend [] ⟨1, true⟩).getLast? = some ⟨1, true⟩ ∧
      List.IsSuffix (evictAppend [] ⟨1, true⟩) ([] ++ [⟨1, true⟩])) :=
  ⟨verify_access_history_amended.1 hashT 1 stW5 "c1" "P@ssw0rd123" recW [] rfl rfl rfl rfl,
   verify_access_history_amended.2.1 hashT 5 stC7 "c2" "x" recC7 rfl (by decide),
   verify_access_history_amended.2.2.1 hashT 5 stC7e "c5" "x" recC7e rfl rfl rfl,
   verify_access_history_amended.2.2.2 [] ⟨1, true⟩⟩

/-- C10: `check_rotation_needed` moves an Active record that needs rotation
to PendingRotation, and `rotate_credential` on a PendingRotation record
replaces the hash and `last_rotated` but does not reactivate it, so every
subsequent `verify_credential` on it returns false, for the new value too. -/
theorem rotate_pending_rotation :
    (∀ (now : Nat) (st : ManagerState) (credId : String) (r : CredentialRecord),
      List.lookup credId st.records = some r →
      r.status = CredStatus.active →
      needsRotation now r = true →
      credId ∈ (checkRotationNeeded now st).1 ∧
      List.lookup credId (checkRotationNeeded now st).2.records =
        some { r with status := CredStatus.pendingRotation }) ∧
    (∀ (hashV : String → String) (mac : Bytes → String → String) (now : Nat)
      (st : ManagerState) (credId newValue : String) (r : CredentialRecord),
      List.lookup credId st.records = some r →
      r.status = CredStatus.pendingRotation →
      (rotateCredential hashV mac now st credId newValue).1 = true ∧
      List.lookup credId (rotateCredential hashV mac now st credId newValue).2.records =
        some { r with valueHash := hashV newValue, lastRotated := some now } ∧
      ({ r with valueHash := hashV newValue, lastRotated := some now }).status =
        CredStatus.pendingRotation ∧
      (∀ (now2 : Nat) (v : String),
        (verifyCredential hashV now2 (rotateCredential hashV mac now st credId newValue).2
            credId v).1 = false)) := by
  constructor
  · intro now st credId r hrec hact hrot
    have hmark : shouldMarkRotation now r = true := by
      simp [shouldMarkRotation, hact, hrot]
    constructor
    · have hmem : (credId, r) ∈ st.records := lookup_mem hrec
      unfold checkRotationNeeded
      dsimp only
      refine List.mem_map.mpr ⟨(credId, r), ?_, rfl⟩
      exact List.mem_filter.mpr ⟨hmem, hmark⟩
    · unfold checkRotationNeeded
      dsimp only
      rw [lookup_mapSnd, hrec]
      simp only [Option.map]
      rw [markRotationIf, if_pos hmark]
  · intro hashV mac now st credId newValue r hrec hst
    have hne : ({ r with valueHash := hashV newValue, lastRotated := some now }
        : CredentialRecord).status ≠ CredStatus.active := by
      show r.status ≠ CredStatus.active
      rw [hst]
      exact fun h => nomatch h
    have hupd : List.lookup credId
        (rotateCredential hashV mac now st credId newValue).2.records =
        some { r with valueHash := hashV newValue, lastRotated := some now } := by
      unfold rotateCredential
      rw [hrec]
      dsimp only
      rw [lookup_updateAssoc, hrec]
      simp only [Option.map]
      unfold rotateRecord
      dsimp only
      rw [if_neg (by simp [hst])]
    refine ⟨?_, hupd, ?_, ?_⟩
    · unfold rotateCredential
      rw [hrec]
    · show r.status = CredStatus.pendingRotation
      exact hst
    · intro now2 v
      unfold verifyCredential
      rw [hupd]
      dsimp only
      rw [if_pos hne]

/-- Active record with a lapsed rotation interval. -/
def recC10a : CredentialRecord :=
  { id := "c4", name := "svc", valueHash := hashT "old",
    status := CredStatus.active, createdAt := 0, expiresAt := none,
    lastRotated := some 0, rotationInterval := some 10, metadata := [] }

/-- State holding `recC10a`. -/
def stC10a : ManagerState :=
  { records := [("c4", recC10a)], leaks := [], accessHistory := [("c4", [])],
    audit := none }

/-- The same record already in PendingRotation. -/
def recC10b : CredentialRecord :=
  { id := "c4", name := "svc", valueHash := hashT "old",
    status := CredStatus.pendingRotation, createdAt := 0, expiresAt := none,
    lastRotated := some 0, rotationInterval := some 10, metadata := [] }

/-- State holding `recC10b`. -/
def stC10b : ManagerState :=
  { records := [("c4", recC10b)], leaks := [], accessHistory := [("c4", [])],
    audit := none }

/-- C10 witness at concrete states, with the post-rotation verification
evaluated at the new value. -/
theorem rotate_pending_rotation_witness :
    ("c4" ∈ (checkRotationNeeded 100 stC10a).1 ∧
      List.lookup "c4" (checkRotationNeeded 100 stC10a).2.records =
        some { recC10a with status := CredStatus.pendingRotation }) ∧
    ((rotateCredential hashT testMac 100 stC10b "c4" "new").1 = true ∧
      List.lookup "c4" (rotateCredential hashT testMac 100 stC10b "c4" "new").2.records =
        some { recC10b with valueHash := hashT "new", lastRotated := some 100 } ∧
      ({ recC10b with valueHash := hashT "new", lastRotated := some 100 }).status =
        CredStatus.pendingRotation ∧
      (verifyCredential hashT 200 (rotateCredential hashT testMac 100 stC10b "c4" "new").2
          "c4" "new").1 = false) :=
  ⟨rotate_pending_rotation.1 100 stC10a "c4" recC10a rfl rfl rfl,
   (fun h => ⟨h.1, h.2.1, h.2.2.1, h.2.2.2 200 "new"⟩)
     (rotate_pending_rotation.2 hashT testMac 100 stC10b "c4" "new" recC10b rfl rfl)⟩

/-! ## injector.py: SandboxInjector -/

/-- Enum `InjectionScope`. -/
inductive InjectionScope where
  | process
  | thread
  | request
deriving DecidableEq

/-- The `TemporaryCredential` dataclass (times in abstract ticks). -/
structure TemporaryCredential where
  id : String
  name : String
  value : String
  createdAt : Nat
  expiresAt : Option Nat
  maxUses : Nat
  useCount : Nat
  scope : InjectionScope
  metadata : List (String × JValue)

/-- The `InjectionResult` dataclass. -/
structure InjectionResult where
  success : Bool
  credentialId : String
  injectedValue : Option String
  environmentKey : Option String
  error : Option String
deriving DecidableEq

/-- Property `TemporaryCredential.is_expired`. -/
def tempIsExpired (now : Nat) (c : TemporaryCredential) : Bool :=
  match c.expiresAt with
  | none => false
  | some t => t < now

/-- Property `TemporaryCredential.is_depleted`. -/
def tempIsDepleted (c : TemporaryCredential) : Bool :=
  c.maxUses ≤ c.useCount

/-- Property `TemporaryCredential.is_valid`. -/
def tempIsValid (now : Nat) (c : TemporaryCredential) : Bool :=
  !(tempIsExpired now c) && !(tempIsDepleted c)

/-- State of a `SandboxInjector`.  The process environment (`os.environ`)
is carried explicitly as `environ`; `threadLocal` is keyed by thread id. -/
structure InjectorState where
  envKeyStart : String
  defaultTtl : Nat
  defaultMaxUses : Nat
  audit : Option LoggerState
  credentials : List (String × TemporaryCredential)
  threadLocal : List (Nat × List (String × String))
  injectedEnvKeys : List (String × String)
  environ : List (String × String)

/-- Python `d[k] = v`: overwrite in place or append. -/
def envSet (l : List (String × String)) (k v : String) : List (String × String) :=
  if l.any (fun p => p.1 == k) then l.map (fun p => if p.1 == k then (k, v) else p)
  else l ++ [(k, v)]

/-- Write into the per-thread map of `_thread_local`. -/
def threadSet (l : List (Nat × List (String × String))) (tid : Nat) (k v : String) :
    List (Nat × List (String × String)) :=
  if l.any (fun p => p.1 == tid) then
    l.map (fun p => if p.1 == tid then (tid, envSet p.2 k v) else p)
  else l ++ [(tid, [(k, v)])]

/-- Helper `AuditLogger.log_credential_used` through an optional logger (called
after `mark_used`, so the counts are the incremented ones). -/
def logCredentialUsedOpt (mac : Bytes → String → String) (audit : Option LoggerState)
    (c : TemporaryCredential) (envKey ts : String) : Option LoggerState :=
  auditLogOpt mac audit AuditEventType.credentialUsed (some c.name) (some "use") "success"
    [("env_key", JValue.s envKey), ("use_count", JValue.n (Int.ofNat c.useCount)),
     ("remaining", JValue.n ((c.maxUses : Int) - (c.useCount : Int)))] none ts

/-- Helper `AuditLogger.log_credential_cleaned` through an optional logger. -/
def logCredentialCleanedOpt (mac : Bytes → String → String) (audit : Option LoggerState)
    (c : TemporaryCredential) (envKey ts : String) : Option LoggerState :=
  auditLogOpt mac audit AuditEventType.credentialCleaned (some c.name) (some "cleanup") "success"
    [("env_key", JValue.s envKey)] none ts

/-- Method `SandboxInjector.inject`.  The Python `try` block only guards external
environment assignment, which cannot fail in this model. -/
def inject (mac : Bytes → String → String) (now tid : Nat) (st : InjectorState)
    (credId : String) (envKeyOpt : Option String) : InjectionResult × InjectorState :=
  match List.lookup credId st.credentials with
  | none =>
      ({ success := false, credentialId := credId, injectedValue := none,
         environmentKey := none, error := some "Credential not found" }, st)
  | some credential =>
    if !(tempIsValid now credential) then
      let reason := if tempIsExpired now credential then "expired" else "depleted"
      ({ success := false, credentialId := credId, injectedValue := none,
         environmentKey := none, error := some (String.append "Credential " reason) }, st)
    else
      let envKey :=
        match envKeyOpt with
        | some k => if k == "" then String.append st.envKeyStart (upperStr credential.name) else k
        | none => String.append st.envKeyStart (upperStr credential.name)
      let st1 :=
        match credential.scope with
        | InjectionScope.process =>
            { st with environ := envSet st.environ envKey credential.value,
                      injectedEnvKeys := envSet st.injectedEnvKeys envKey credId }
        | InjectionScope.thread =>
            { st with threadLocal := threadSet st.threadLocal tid envKey credential.value }
        | InjectionScope.request => st
      let creds2 :=
        updateAssoc credId (fun c => { c with useCount := c.useCount + 1 }) st1.credentials
      let st2 := { st1 with credentials := creds2 }
      let usedCred := { credential with useCount := credential.useCount + 1 }
      let au := logCredentialUsedOpt mac st2.audit usedCred envKey (toString now)
      let st3 := { st2 with audit := au }
      ({ success := true, credentialId := credId, injectedValue := some credential.value,
         environmentKey := some envKey, error := none }, st3)

/-- Python `del d[k]` combined with the `in` guard: drop the binding. -/
def removeKeyEntry (k : String) (l : List (String × String)) : List (String × String) :=
  l.filter (fun p => !(p.1 == k))

/-- Method `SandboxInjector.cleanup`.  The check guarding the `credential_cleaned`
event compares the remaining tracked credential ids against the env key
being cleaned (`k == env_key` over `.values()`), exactly as the source
does. -/
def cleanup (mac : Bytes → String → String) (now : Nat) (st : InjectorState)
    (envKey : String) : Bool × InjectorState :=
  let st1 := { st with environ := removeKeyEntry envKey st.environ }
  match List.lookup envKey st1.injectedEnvKeys with
  | none => (true, st1)
  | some credId =>
    let st2 := { st1 with injectedEnvKeys := removeKeyEntry envKey st1.injectedEnvKeys }
    if st2.injectedEnvKeys.any (fun p => p.2 == envKey) then (true, st2)
    else
      match List.lookup credId st2.credentials, st2.audit with
      | some credential, some _ =>
          let au := logCredentialCleanedOpt mac st2.audit credential envKey (toString now)
          (true, { st2 with audit := au })
      | _, _ => (true, st2)

/-- Every audit event the optional injector logger has accepted. -/
def injAllEvents (st : InjectorState) : List AuditEvent :=
  match st.audit with
  | none => []
  | some lg => allEvents lg

/-! ## Claims about the injector -/

/-- C6: `inject` on an unknown, expired or depleted credential returns
`success=false` with an error distinguishing the case, and returns the
state unchanged: environment, tracking map, thread-local map and use
counts are exactly those of the input state. -/
theorem injector_inject_failure_no_mutation (mac : Bytes → String → String) (now tid : Nat)
    (st : InjectorState) (credId : String) (envKeyOpt : Option String) :
    (List.lookup credId st.credentials = none →
      inject mac now tid st credId envKeyOpt =
        ({ success := false, credentialId := credId, injectedValue := none,
           environmentKey := none, error := some "Credential not found" }, st)) ∧
    (∀ c, List.lookup credId st.credentials = some c →
      tempIsExpired now c = true →
      inject mac now tid st credId envKeyOpt =
        ({ success := false, credentialId := credId, injectedValue := none,
           environmentKey := none, error := some "Credential expired" }, st)) ∧
    (∀ c, List.lookup credId st.credentials = some c →
      tempIsExpired now c = false →
      tempIsDepleted c = true →
      inject mac now tid st credId envKeyOpt =
        ({ success := false, credentialId := credId, injectedValue := none,
           environmentKey := none, error := some "Credential depleted" }, st)) := by
  refine ⟨?_, ?_, ?_⟩
  · intro h
    unfold inject
    rw [h]
  · intro c hc hexp
    unfold inject
    rw [hc]
    dsimp only
    have hval : (!(tempIsValid now c)) = true := by simp [tempIsValid, hexp]
    rw [if_pos hval, if_pos hexp]
    rfl
  · intro c hc hexp hdep
    unfold inject
    rw [hc]
    dsimp only
    have hval : (!(tempIsValid now c)) = true := by simp [tempIsValid, hdep]
    rw [if_pos hval, if_neg (by simp [hexp])]
    rfl

/-- An injector state with no credentials. -/
def stU : InjectorState :=
  { envKeyStart := "AGENT_TEMP_", defaultTtl := 300, defaultMaxUses := 1, audit := none,
    credentials := [], threadLocal := [], injectedEnvKeys := [], environ := [] }

/-- An expired temporary credential. -/
def credE : TemporaryCredential :=
  { id := "ce", name := "db", value := "v", createdAt := 0, expiresAt := some 1,
    maxUses := 1, useCount := 0, scope := InjectionScope.process, metadata := [] }

/-- State holding only `credE`. -/
def stE : InjectorState := { stU with credentials := [("ce", credE)] }

/-- A depleted temporary credential. -/
def credD : TemporaryCredential :=
  { id := "cd", name := "db", value := "v", createdAt := 0, expiresAt := none,
    maxUses := 1, useCount := 1, scope := InjectionScope.process, metadata := [] }

/-- State holding only `credD`. -/
def stD : InjectorState := { stU with credentials := [("cd", credD)] }

/-- C6 witness: unknown, expired and depleted cases at concrete states. -/
theorem injector_inject_failure_no_mutation_witness :
    inject testMac 5 0 stU "nope" none =
      ({ success := false, credentialId := "nope", injectedValue := none,
         environmentKey := none, error := some "Credential not found" }, stU) ∧
    inject testMac 5 0 stE "ce" none =
      ({ success := false, credentialId := "ce", injectedValue := none,
         environmentKey := none, error := some "Credential expired" }, stE) ∧
    inject testMac 5 0 stD "cd" (some "K") =
      ({ success := false, credentialId := "cd", injectedValue := none,
         environmentKey := none, error := some "Credential depleted" }, stD) :=
  ⟨(injector_inject_failure_no_mutation testMac 5 0 stU "nope" none).1 rfl,
   (injector_inject_failure_no_mutation testMac 5 0 stE "ce" none).2.1 credE rfl rfl,
   (injector_inject_failure_no_mutation testMac 5 0 stD "cd" (some "K")).2.2 credD rfl rfl rfl⟩

/-- A temporary credential injected under two env keys. -/
def credC9 : TemporaryCredential :=
  { id := "C", name := "db", value := "v", createdAt := 0, expiresAt := none,
    maxUses := 5, useCount := 2, scope := InjectionScope.process, metadata := [] }

/-- Injector state where both `E1` and `E2` are tracked bindings of the
same credential id `C`, with an audit logger attached. -/
def stC9 : InjectorState :=
  { envKeyStart := "AGENT_TEMP_", defaultTtl := 300, defaultMaxUses := 1,
    audit := some lgW, credentials := [("C", credC9)], threadLocal := [],
    injectedEnvKeys := [("E1", "C"), ("E2", "C")],
    environ := [("E1", "v"), ("E2", "v")] }

/-- C9 failing input evaluated: after `cleanup("E1")` the other binding
`E2` still maps to credential `C`, yet exactly one `credential_cleaned`
event was emitted — the source compares the remaining tracked credential
ids against the env key instead of against the credential id, so the
"no other binding" guard is vacuous, contradicting both the claim and the
comment the source itself places above the check. -/
theorem cleanup_other_binding_bug :
    List.lookup "E2" (cleanup testMac 7 stC9 "E1").2.injectedEnvKeys = some "C" ∧
    countType AuditEventType.credentialCleaned
      (injAllEvents (cleanup testMac 7 stC9 "E1").2) = 1 :=
  ⟨rfl, rfl⟩
